import Mathlib

/-
Verification development for the date-detection / range-extraction /
harmonization engine of the rde_ds_demo_frontend repository.

The Python sources are shallowly embedded:
  - src/utils/date_detector.py    (detect_date_column, get_date_range)
  - src/utils/file_handler.py     (get_column_names, get_date_range_lazy, read_file)
  - src/utils/date_harmonizer.py  (DATE_FORMATS, _try_parse_dates_polars,
                                   _detect_date_columns_polars, _detect_date_columns_pandas,
                                   _harmonize_dates_polars, _harmonize_dates_pandas,
                                   get_harmonized_csv)
  - src/utils/metadata.py         (FileMetadata, MetadataManager.update)
  - src/utils/async_processor.py  (_process_file_sync)

File I/O is abstracted by a FileEnv record holding the outcome of each
read operation; machine floats in the 0.8 threshold comparisons are
replaced by exact rational comparisons (5 * count > 4 * len, etc.),
which agree with IEEE evaluation for all sample sizes that occur
(samples are capped at 100 values).
-/

namespace DsDemo

/-! ## Calendar dates -/

/-- A calendar date, as produced by the date parsers (all the formats in
the source are date-only, so parsed values are dates at midnight). -/
structure Date where
  year : Nat
  month : Nat
  day : Nat
deriving DecidableEq, Repr

/-- Leap-year rule of the Gregorian calendar (as chrono and Python use). -/
def isLeap (y : Nat) : Bool := y % 4 = 0 && (y % 100 ≠ 0 || y % 400 = 0)

/-- Number of days in a month. -/
def daysInMonth (y m : Nat) : Nat :=
  if m = 2 then (if isLeap y then 29 else 28)
  else if m = 4 ∨ m = 6 ∨ m = 9 ∨ m = 11 then 30
  else 31

/-- Validity of a (year, month, day) triple: real calendar dates only,
as the strict date validation of chrono / pandas enforces. -/
def validYMD (y m d : Nat) : Bool :=
  1 ≤ m && m ≤ 12 && 1 ≤ d && d ≤ daysInMonth y m

def mkDate (y m d : Nat) : Option Date :=
  if validYMD y m d then some ⟨y, m, d⟩ else none

/-- Total order key on dates (injective on valid dates). -/
def Date.key (d : Date) : Nat := d.year * 10000 + d.month * 100 + d.day

def dateMin (a b : Date) : Date := if a.key ≤ b.key then a else b
def dateMax (a b : Date) : Date := if b.key ≤ a.key then a else b

/-- Minimum of a list of dates (none on the empty list), modelling the
min aggregation of polars / pandas which ignores nulls upstream. -/
def listMin : List Date → Option Date
  | [] => none
  | d :: rest => some (rest.foldl dateMin d)

/-- Maximum of a list of dates (none on the empty list). -/
def listMax : List Date → Option Date
  | [] => none
  | d :: rest => some (rest.foldl dateMax d)

/-! ## Digits and numeric fields -/

/-- The decimal digit characters, by value. -/
def digitChar : Nat → Char
  | 0 => '0' | 1 => '1' | 2 => '2' | 3 => '3' | 4 => '4'
  | 5 => '5' | 6 => '6' | 7 => '7' | 8 => '8' | 9 => '9'
  | _ => '#'

/-- Value of a decimal digit character. -/
def digitVal (c : Char) : Option Nat :=
  if c.isDigit then some (c.toNat - 48) else none

def decNumAux : Nat → List Char → Option Nat
  | a, [] => some a
  | a, c :: cs =>
    match digitVal c with
    | some d => decNumAux (a * 10 + d) cs
    | none => none

/-- Decode a nonempty all-digit character list as a decimal number. -/
def decNum : List Char → Option Nat
  | [] => none
  | cs => decNumAux 0 cs

/-- A numeric field of between lo and hi digits (chrono-style numeric
specifiers accept unpadded one-digit months and days). -/
def numField (lo hi : Nat) (cs : List Char) : Option Nat :=
  if lo ≤ cs.length ∧ cs.length ≤ hi then decNum cs else none

/-! ## Splitting -/

/-- Split a character list on a separator character (like str.split). -/
def splitOnChar (sep : Char) : List Char → List (List Char)
  | [] => [[]]
  | c :: rest =>
    let r := splitOnChar sep rest
    if c = sep then [] :: r
    else
      match r with
      | [] => [[c]]
      | h :: t => (c :: h) :: t

/-! ## Date formats of src/utils/date_harmonizer.py -/

/-- The DATE_FORMATS list of date_harmonizer.py, in source order. -/
def DATE_FORMATS : List String :=
  ["%Y-%m-%d", "%m/%d/%Y", "%d/%m/%Y", "%Y/%m/%d", "%m-%d-%Y",
   "%d-%m-%Y", "%Y%m%d", "%B %d, %Y", "%b %d, %Y", "%d %B %Y", "%d %b %Y"]

inductive FieldOrder | ymd | mdy | dmy
deriving DecidableEq, Repr

/-- Parse a three-numeric-field date separated by a separator character,
with the given field order (the year field is four digits, month and day
one or two digits, and the resulting triple must be a valid date). -/
def parse3 (sep : Char) (ord : FieldOrder) (s : String) : Option Date :=
  match splitOnChar sep s.data with
  | [a, b, c] =>
    match ord with
    | .ymd => do
      let y ← numField 4 4 a
      let m ← numField 1 2 b
      let d ← numField 1 2 c
      mkDate y m d
    | .mdy => do
      let m ← numField 1 2 a
      let d ← numField 1 2 b
      let y ← numField 4 4 c
      mkDate y m d
    | .dmy => do
      let d ← numField 1 2 a
      let m ← numField 1 2 b
      let y ← numField 4 4 c
      mkDate y m d
  | _ => none

/-- Parse the compact format %Y%m%d: exactly eight digits. -/
def parseCompact (s : String) : Option Date :=
  match s.data with
  | [y1, y2, y3, y4, m1, m2, d1, d2] => do
    let y ← numField 4 4 [y1, y2, y3, y4]
    let m ← numField 2 2 [m1, m2]
    let d ← numField 2 2 [d1, d2]
    mkDate y m d
  | _ => none

def monthNamesFull : List String :=
  ["January", "February", "March", "April", "May", "June", "July",
   "August", "September", "October", "November", "December"]

def monthAbbr : List String :=
  ["Jan", "Feb", "Mar", "Apr", "May", "Jun", "Jul", "Aug", "Sep",
   "Oct", "Nov", "Dec"]

def monthFromName (table : List String) (cs : List Char) : Option Nat :=
  (table.findIdx? (fun n => n.data == cs)).map (· + 1)

/-- Parse the month-name formats: dayFirst true models %d Month %Y, and
dayFirst false models Month %d, %Y (with the mandatory comma). -/
def parseMonthName (table : List String) (dayFirst : Bool) (s : String) : Option Date :=
  match splitOnChar ' ' s.data with
  | [a, b, c] =>
    if dayFirst then do
      let d ← numField 1 2 a
      let m ← monthFromName table b
      let y ← numField 4 4 c
      mkDate y m d
    else do
      let m ← monthFromName table a
      let db ← (if b.getLast? = some ',' then some b.dropLast else none)
      let d ← numField 1 2 db
      let y ← numField 4 4 c
      mkDate y m d
  | _ => none

/-- Parse a string with one of the strftime formats of DATE_FORMATS,
modelling polars str.to_datetime(format=fmt, strict=False) on one cell
(returns none instead of raising on a non-matching cell). -/
def parseWithFormat (fmt : String) (s : String) : Option Date :=
  if fmt = "%Y-%m-%d" then parse3 '-' .ymd s
  else if fmt = "%m/%d/%Y" then parse3 '/' .mdy s
  else if fmt = "%d/%m/%Y" then parse3 '/' .dmy s
  else if fmt = "%Y/%m/%d" then parse3 '/' .ymd s
  else if fmt = "%m-%d-%Y" then parse3 '-' .mdy s
  else if fmt = "%d-%m-%Y" then parse3 '-' .dmy s
  else if fmt = "%Y%m%d" then parseCompact s
  else if fmt = "%B %d, %Y" then parseMonthName monthNamesFull false s
  else if fmt = "%b %d, %Y" then parseMonthName monthAbbr false s
  else if fmt = "%d %B %Y" then parseMonthName monthNamesFull true s
  else if fmt = "%d %b %Y" then parseMonthName monthAbbr true s
  else none

/-- Permissive per-cell date parse: the first format of DATE_FORMATS
that succeeds. This models both pandas to_datetime(errors="coerce") and
polars str.to_datetime with no format argument (format inference); both
accept at least this family of formats, and all inputs exercised by the
claims are either in the family or parse under no common format. -/
def parseGeneric (s : String) : Option Date :=
  DATE_FORMATS.findSome? (fun fmt => parseWithFormat fmt s)

/-! ## ISO formatting -/

def pad2Chars (n : Nat) : List Char := [digitChar (n / 10 % 10), digitChar (n % 10)]

def pad4Chars (n : Nat) : List Char :=
  [digitChar (n / 1000 % 10), digitChar (n / 100 % 10),
   digitChar (n / 10 % 10), digitChar (n % 10)]

/-- Render a date as YYYY-MM-DD, modelling strftime %Y-%m-%d (zero
padded fields). -/
def formatISO (d : Date) : String :=
  String.mk (pad4Chars d.year ++ '-' :: (pad2Chars d.month ++ '-' :: pad2Chars d.day))

/-- Render a midnight datetime as Python datetime.isoformat() does. -/
def isoformatDT (d : Date) : String := formatISO d ++ "T00:00:00"

/-- A string is a canonical ISO date (the YYYY-MM-DD form) when it is
the ISO rendering of some valid calendar date. -/
def isIsoDateString (s : String) : Bool :=
  match parseWithFormat "%Y-%m-%d" s with
  | some d => formatISO d == s
  | none => false

/-! ## Tabular data model -/

/-- A dataframe column with its dtype.  strCol models object / Utf8
columns (cells are null or strings), dtCol models datetime64 / Datetime
/ Date typed columns, otherCol models every remaining dtype (numeric,
boolean, ...), of which only the height matters to the engine: such
columns are skipped by both classifiers. -/
inductive Col
  | strCol (cells : List (Option String))
  | dtCol (cells : List (Option Date))
  | otherCol (len : Nat)
deriving DecidableEq, Repr

/-- A tabular dataset: named columns in order.  Uniqueness of names is
an invariant of both pandas and polars frames and is carried as a
hypothesis where a proof needs it. -/
structure DF where
  cols : List (String × Col)
deriving DecidableEq, Repr

/-- Association-list lookup (first binding wins), used for dict and
column-by-name access. -/
def alookup {α : Type} : List (String × α) → String → Option α
  | [], _ => none
  | (k, v) :: rest, key => if k = key then some v else alookup rest key

/-- Association-list set: replace in place when the key is present
(keeping its position, as dict update and with_columns do), otherwise
append at the end. -/
def aset {α : Type} : List (String × α) → String → α → List (String × α)
  | [], key, v => [(key, v)]
  | (k, v0) :: rest, key, v =>
    if k = key then (k, v) :: rest else (k, v0) :: aset rest key v

def DF.names (df : DF) : List String := df.cols.map Prod.fst

def Col.isDt : Col → Bool
  | .dtCol _ => true
  | _ => false

/-! ## src/utils/date_detector.py -/

/-- Sample used by detect_date_column: df[col].dropna().head(100). -/
def sample100 (cells : List (Option String)) : List String :=
  (cells.filterMap id).take 100

/-- The per-column test of detect_date_column: the first-100 non-null
sample must be nonempty and strictly more than 80 percent of it must
parse (the source compares with a strict greater-than:
parsed.notna().sum() / len(sample) > 0.8). -/
def detectSampleMatches (cells : List (Option String)) : Bool :=
  let sample := sample100 cells
  if sample.length = 0 then false
  else 5 * ((sample.map parseGeneric).filterMap id).length > 4 * sample.length

/-- detect_date_column of date_detector.py: first any datetime-typed
column (in column order), otherwise the first object column whose
sample passes the strict 80 percent test. -/
def detect_date_column (df : DF) : Option String :=
  match df.cols.findSome? (fun nc => match nc.2 with
      | .dtCol _ => some nc.1
      | _ => none) with
  | some n => some n
  | none =>
    df.cols.findSome? (fun nc => match nc.2 with
      | .strCol cells => if detectSampleMatches cells then some nc.1 else none
      | _ => none)

/-- Coercion pd.to_datetime(df[col], errors="coerce") applied to a full
column: per-cell permissive parse on object columns, identity on
datetime columns.  On numeric columns pandas would reinterpret the
numbers as epoch timestamps; such columns are never classified as date
columns and no claim exercises that branch, so it is modelled as
yielding no valid dates. -/
def coerceCol : Col → List (Option Date)
  | .strCol cells => cells.map (fun o => o.bind parseGeneric)
  | .dtCol cells => cells
  | .otherCol n => List.replicate n none

/-- get_date_range of date_detector.py.  The whole body is wrapped in
try/except returning (None, None), so a missing column (KeyError) also
yields (None, None). -/
def get_date_range (df : DF) (dateColumn : String) : Option Date × Option Date :=
  match alookup df.cols dateColumn with
  | none => (none, none)
  | some col =>
    let valid := (coerceCol col).filterMap id
    match listMin valid, listMax valid with
    | some a, some b => (some a, some b)
    | _, _ => (none, none)

/-! ## src/utils/file_handler.py -/

/-- Python exception classes relevant to the engine. -/
inductive PyError
  | valueError (msg : String)
  | typeError (msg : String)
  | ioError (msg : String)
deriving DecidableEq, Repr

def PyError.msg : PyError → String
  | .valueError m => m
  | .typeError m => m
  | .ioError m => m

/-- Abstraction of the file on disk: the outcome of each read operation
the engine performs.  Distinct fields model distinct I/O calls (the
file can change or fail between them).  An error value is the message
of the exception the underlying library raised. -/
structure FileEnv where
  /-- file_path.suffix: the extension including the dot, raw case. -/
  suffix : String
  /-- Outcome of the schema-only read in get_column_names. -/
  schemaCols : Except String (List String)
  /-- Outcome of read_file with an nrows bound (the detection sample). -/
  sampleDF : Except String DF
  /-- Outcome of read_file with no bound (the full materialization). -/
  fullDF : Except String DF
  /-- Outcome of the lazy scan-and-collect in get_date_range_lazy. -/
  scanDF : Except String DF
  /-- Outcome of the read in get_harmonized_csv. -/
  harmDF : Except String DF

/-- Lift a library-level I/O outcome into a Python exception. -/
def liftRead {α : Type} : Except String α → Except PyError α
  | .ok a => .ok a
  | .error m => .error (.ioError m)

def recognizedSuffixes : List String := [".csv", ".xlsx", ".xls"]

/-- str.lower() on an extension (structural model of String.toLower,
which suffices for ASCII extensions). -/
def strLower (s : String) : String := String.mk (s.data.map Char.toLower)

/-- get_column_names of file_handler.py. -/
def get_column_names (env : FileEnv) : Except PyError (List String) :=
  let suffix := strLower env.suffix
  if suffix = ".csv" then liftRead env.schemaCols
  else if suffix = ".xlsx" ∨ suffix = ".xls" then liftRead env.schemaCols
  else .error (.valueError ("Unsupported file type: " ++ suffix))

/-- read_file of file_handler.py; the nrows argument selects which read
outcome applies (the env field already reflects the row bound). -/
def read_file (env : FileEnv) (nrows : Option Nat) : Except PyError DF :=
  let suffix := strLower env.suffix
  if suffix = ".csv" ∨ suffix = ".xlsx" ∨ suffix = ".xls" then
    liftRead (if nrows.isSome then env.sampleDF else env.fullDF)
  else .error (.valueError ("Unsupported file type: " ++ suffix))

/-- get_date_range_lazy of file_handler.py.  Every exception inside the
body is caught and turned into (None, None) (per the docstring,
"(None, None) on error"): a failing scan, a missing column
(ColumnNotFoundError) and a str accessor on a non-string column
(SchemaError) all land in the except branch. -/
def get_date_range_lazy (env : FileEnv) (dateColumn : String) :
    Option String × Option String :=
  if strLower env.suffix ≠ ".csv" then (none, none)
  else
    match env.scanDF with
    | .error _ => (none, none)
    | .ok df =>
      match alookup df.cols dateColumn with
      | none => (none, none)
      | some (.strCol cells) =>
        let valid := (cells.map (fun o => o.bind parseGeneric)).filterMap id
        match listMin valid, listMax valid with
        | some a, some b => (some (isoformatDT a), some (isoformatDT b))
        | _, _ => (none, none)
      | some _ => (none, none)

/-! ## src/utils/date_harmonizer.py -/

/-- Sample size of the harmonizer detection (DETECTION_SAMPLE_SIZE). -/
def HARM_SAMPLE_SIZE : Nat := 100

/-- try_parse_dates_polars: try each format of DATE_FORMATS in order and
return the parsed series with the first format for which at least 80
percent of the values parse (valid_count >= len(series) * 0.8). -/
def tryParseDatesPolars (sample : List String) :
    Option (List (Option Date) × String) :=
  DATE_FORMATS.findSome? (fun fmt =>
    let parsed := sample.map (parseWithFormat fmt)
    if 5 * (parsed.filterMap id).length ≥ 4 * sample.length then
      some (parsed, fmt)
    else none)

/-- detect_date_columns_polars with the default threshold 0.8: every
datetime-typed column is detected with format None; a Utf8 column is
detected with the format found by tryParseDatesPolars when at least 80
percent of its first-100 non-null sample parses under it. -/
def detectDateColumnsPolars (df : DF) : List (String × Option String) :=
  df.cols.filterMap (fun nc =>
    match nc.2 with
    | .dtCol _ => some (nc.1, none)
    | .strCol cells =>
      let sample := (cells.filterMap id).take HARM_SAMPLE_SIZE
      if sample.length = 0 then none
      else
        match tryParseDatesPolars sample with
        | some (parsed, fmt) =>
          if 5 * (parsed.filterMap id).length ≥ 4 * sample.length then
            some (nc.1, some fmt)
          else none
        | none => none
    | .otherCol _ => none)

/-- The per-column test of detect_date_columns_pandas (threshold 0.8,
compared with a non-strict >=, unlike detect_date_column). -/
def pandasSampleMatches (cells : List (Option String)) : Bool :=
  let sample := (cells.filterMap id).take HARM_SAMPLE_SIZE
  if sample.length = 0 then false
  else 5 * ((sample.map parseGeneric).filterMap id).length ≥ 4 * sample.length

/-- detect_date_columns_pandas with the default threshold 0.8. -/
def detectDateColumnsPandas (df : DF) : List String :=
  df.cols.filterMap (fun nc =>
    match nc.2 with
    | .dtCol _ => some nc.1
    | .strCol cells => if pandasSampleMatches cells then some nc.1 else none
    | .otherCol _ => none)

/-- Per-cell parse used by the polars harmonizer: the detected format
when there is one, format inference otherwise. -/
def parseCellPolars (fmt : Option String) (s : String) : Option Date :=
  match fmt with
  | some f => parseWithFormat f s
  | none => parseGeneric s

/-- Per-cell harmonized value of a string column: parse, format to ISO,
and turn null (unparseable or originally null) into the empty string
(str.to_datetime(strict=False).dt.strftime.fill_null("")). -/
def harmonizeCellStr (fmt : Option String) (o : Option String) : String :=
  match o with
  | none => ""
  | some s =>
    match parseCellPolars fmt s with
    | some d => formatISO d
    | none => ""

/-- Harmonized values of one column under the polars harmonizer.  The
str accessor on a non-string, non-datetime column raises SchemaError;
detection never emits such a column. -/
def harmonizeColPolars (c : Col) (fmt : Option String) :
    Except PyError (List String) :=
  match c with
  | .dtCol cells => .ok (cells.map (fun o => (o.map formatISO).getD ""))
  | .strCol cells => .ok (cells.map (harmonizeCellStr fmt))
  | .otherCol _ => .error (.typeError "SchemaError: str accessor on non-string column")

/-- Harmonized values of one column under the pandas harmonizer
(pd.to_datetime(errors="coerce"), strftime, fillna("")).  On a numeric
column pandas would reinterpret the numbers as epoch timestamps;
detection never emits such a column and no claim exercises that branch,
so it is modelled as a model-level error. -/
def harmonizeColPandas (c : Col) : Except PyError (List String) :=
  match c with
  | .dtCol cells => .ok (cells.map (fun o => (o.map formatISO).getD ""))
  | .strCol cells =>
    .ok (cells.map (fun o =>
      match o with
      | none => ""
      | some s => ((parseGeneric s).map formatISO).getD ""))
  | .otherCol _ => .error (.typeError "epoch coercion of numeric column outside model")

/-- One loop iteration shared by both harmonizers: skip the column if it
is not in the current result, otherwise compute the harmonized values
and set column col_harmonized (with_columns / column assignment:
replace in place when the name exists, append otherwise). -/
def harmStep {α : Type} (hcol : Col → α → Except PyError (List String))
    (result : DF) (p : String × α) : Except PyError DF :=
  match alookup result.cols p.1 with
  | none => .ok result
  | some c =>
    match hcol c p.2 with
    | .ok vals => .ok ⟨aset result.cols (p.1 ++ "_harmonized") (.strCol (vals.map some))⟩
    | .error e => .error e

/-- harmonize_dates_polars: fold harmStep over the detected columns. -/
def harmonizeDatesPolars (df : DF) (dateColumns : List (String × Option String)) :
    Except PyError DF :=
  dateColumns.foldlM (harmStep (fun c fmt => harmonizeColPolars c fmt)) df

/-- harmonize_dates_pandas: fold harmStep over the detected columns
(the detected list carries no format, hence the unit payload). -/
def harmonizeDatesPandas (df : DF) (dateColumns : List String) :
    Except PyError DF :=
  (dateColumns.map (fun c => (c, ()))).foldlM
    (harmStep (fun c _ => harmonizeColPandas c)) df

/-- CSV serialization of a dataframe (header row then one line per row;
null cells render empty).  The claims constrain only the column
structure, not the byte-level encoding. -/
def writeCsv (df : DF) : String :=
  let header := String.intercalate "," df.names
  let height := (df.cols.head?.map (fun nc =>
    match nc.2 with
    | .strCol cells => cells.length
    | .dtCol cells => cells.length
    | .otherCol n => n)).getD 0
  let cellAt (c : Col) (i : Nat) : String :=
    match c with
    | .strCol cells => ((cells.get? i).bind id).getD ""
    | .dtCol cells => (((cells.get? i).bind id).map isoformatDT).getD ""
    | .otherCol _ => ""
  let rows := (List.range height).map (fun i =>
    String.intercalate "," (df.cols.map (fun nc => cellAt nc.2 i)))
  String.intercalate "\n" (header :: rows)

/-- get_harmonized_csv of date_harmonizer.py. -/
def get_harmonized_csv (env : FileEnv) : Except PyError String :=
  let suffix := strLower env.suffix
  if suffix = ".csv" then do
    let df ← liftRead env.harmDF
    let dcs := detectDateColumnsPolars df
    let h ← harmonizeDatesPolars df dcs
    .ok (writeCsv h)
  else if suffix = ".xlsx" ∨ suffix = ".xls" then do
    let df ← liftRead env.harmDF
    let dcs := detectDateColumnsPandas df
    let h ← harmonizeDatesPandas df dcs
    .ok (writeCsv h)
  else .error (.valueError ("Unsupported file type: " ++ suffix))

/-! ## src/utils/metadata.py -/

/-- JSON-representable values stored in a metadata record. -/
inductive JVal
  | s (v : String)
  | int (v : Int)
  | bool (b : Bool)
  | null
deriving DecidableEq, Repr

/-- A metadata record: the JSON object stored under one filename,
key-value pairs in insertion order (Python dict order). -/
abbrev Rec := List (String × JVal)

/-- The metadata store: the top-level JSON object keyed by filename. -/
abbrev Store := List (String × Rec)

/-- Python dict.update(kwargs): set each pair in order, replacing in
place or appending at the end. -/
def recUpdate (r : Rec) (kvs : Rec) : Rec :=
  kvs.foldl (fun acc kv => aset acc kv.1 kv.2) r

/-- The last binding of a key in a kwargs list (kwargs have unique keys
in the source, so this is simply its binding when present). -/
def lastLookup : Rec → String → Option JVal
  | [], _ => none
  | (k0, v0) :: rest, k =>
    match lastLookup rest k with
    | some v => some v
    | none => if k0 = k then some v0 else none

/-- The FileMetadata dataclass of metadata.py.  Its fields are exactly
these eight; the dataclass performs no runtime type validation, so the
field values are modelled as raw JSON values. -/
structure FileMetadata where
  filename : JVal
  upload_time : JVal
  file_size : JVal
  status : JVal
  date_column : JVal := .null
  earliest_date : JVal := .null
  latest_date : JVal := .null
  error_message : JVal := .null
deriving DecidableEq, Repr

/-- The keyword arguments FileMetadata accepts. -/
def fileMetadataFields : List String :=
  ["filename", "upload_time", "file_size", "status",
   "date_column", "earliest_date", "latest_date", "error_message"]

/-- Constructing FileMetadata(**r): a TypeError for any key outside the
field list or for a missing required field, otherwise the record. -/
def fileMetadataOfRec (r : Rec) : Except PyError FileMetadata :=
  match r.find? (fun kv => !(fileMetadataFields.contains kv.1)) with
  | some kv => .error (.typeError ("unexpected keyword argument " ++ kv.1))
  | none =>
    match alookup r "filename", alookup r "upload_time",
          alookup r "file_size", alookup r "status" with
    | some a, some b, some c, some d =>
      .ok { filename := a, upload_time := b, file_size := c, status := d,
            date_column := (alookup r "date_column").getD .null,
            earliest_date := (alookup r "earliest_date").getD .null,
            latest_date := (alookup r "latest_date").getD .null,
            error_message := (alookup r "error_message").getD .null }
    | _, _, _, _ => .error (.typeError "missing required positional argument")

/-- MetadataManager.update: load, return None when the filename is
absent, otherwise merge the kwargs into the record, save, and only then
construct FileMetadata(**record) — so the save lands even when the
construction raises. -/
def metadataUpdate (store : Store) (filename : String) (kvs : Rec) :
    Store × Except PyError (Option FileMetadata) :=
  match alookup store filename with
  | none => (store, .ok none)
  | some r =>
    let r2 := recUpdate r kvs
    let store2 := aset store filename r2
    match fileMetadataOfRec r2 with
    | .ok md => (store2, .ok (some md))
    | .error e => (store2, .error e)

/-! ## src/utils/async_processor.py -/

/-- Sample size for date column detection (async_processor.py). -/
def DETECTION_SAMPLE_SIZE : Nat := 1000

/-- Outcome of the date-column resolution step of _process_file_sync,
instrumented with whether the Classifier (detect_date_column) ran. -/
structure Resolution where
  dateColumn : Option String
  userSpecified : Bool
  classifierInvoked : Bool
deriving DecidableEq, Repr

/-- The column-resolution block of _process_file_sync: a truthy
specified column name is checked against get_column_names; when present
it is used directly with user_specified True and without invoking the
classifier; when absent (or when no name was given) a bounded sample is
read and detect_date_column runs. -/
def resolveDateColumn (env : FileEnv) (specified : Option String) :
    Except PyError Resolution :=
  match specified with
  | some s =>
    if s.isEmpty then do
      let df ← read_file env (some DETECTION_SAMPLE_SIZE)
      .ok ⟨detect_date_column df, false, true⟩
    else do
      let cols ← get_column_names env
      if s ∈ cols then
        .ok ⟨some s, true, false⟩
      else do
        let df ← read_file env (some DETECTION_SAMPLE_SIZE)
        .ok ⟨detect_date_column df, false, true⟩
  | none => do
    let df ← read_file env (some DETECTION_SAMPLE_SIZE)
    .ok ⟨detect_date_column df, false, true⟩

/-- The dictionary _process_file_sync returns. -/
inductive RunOut
  | completedNone
  | completed (dateColumn : String) (earliest latest : Option String)
  | errored (msg : String)
deriving DecidableEq, Repr

def joptStr : Option String → JVal
  | some s => .s s
  | none => .null

/-- The body of the try block of _process_file_sync: set processing,
resolve the column, compute the range (lazy for CSV, materializing for
Excel) and write the terminal completed record.  Any raised exception
is returned in the error component together with the store as already
mutated. -/
def processBody (env : FileEnv) (store0 : Store) (filename : String)
    (specified : Option String) : Store × Except PyError RunOut :=
  let (store1, u1) := metadataUpdate store0 filename [("status", .s "processing")]
  match u1 with
  | .error e => (store1, .error e)
  | .ok _ =>
    match resolveDateColumn env specified with
    | .error e => (store1, .error e)
    | .ok r =>
      match r.dateColumn with
      | none =>
        let kw : Rec := [("status", .s "completed"), ("date_column", .null),
                         ("earliest_date", .null), ("latest_date", .null),
                         ("user_specified_date_column", .bool false)]
        let (store2, u2) := metadataUpdate store1 filename kw
        match u2 with
        | .error e => (store2, .error e)
        | .ok _ => (store2, .ok .completedNone)
      | some c =>
        let rng : Except PyError (Option String × Option String) :=
          if strLower env.suffix = ".csv" then .ok (get_date_range_lazy env c)
          else
            match read_file env none with
            | .error e => .error e
            | .ok df =>
              let (a, b) := get_date_range df c
              .ok (a.map isoformatDT, b.map isoformatDT)
        match rng with
        | .error e => (store1, .error e)
        | .ok (e1, l1) =>
          let kw : Rec := [("status", .s "completed"), ("date_column", .s c),
                           ("earliest_date", joptStr e1), ("latest_date", joptStr l1),
                           ("user_specified_date_column", .bool r.userSpecified)]
          let (store3, u3) := metadataUpdate store1 filename kw
          match u3 with
          | .error e => (store3, .error e)
          | .ok _ => (store3, .ok (.completed c e1 l1))

/-- _process_file_sync of async_processor.py: run the body and, on any
exception, record status error with the message; an exception raised by
that very error-update itself propagates out of the function (its save
still lands first). -/
def processFileSync (env : FileEnv) (store : Store) (filename : String)
    (specified : Option String) : Store × Except PyError RunOut :=
  match processBody env store filename specified with
  | (s, .ok v) => (s, .ok v)
  | (s, .error e) =>
    let (s2, u) := metadataUpdate s filename
      [("status", .s "error"), ("error_message", .s e.msg)]
    match u with
    | .error e2 => (s2, .error e2)
    | .ok _ => (s2, .ok (.errored e.msg))

/-! ## Auxiliary definitions for the verification -/

/-- The harmonized values the polars harmonizer computes for a detected
column of the original frame (used to state the frame theorem). -/
def hvalsPolars (df : DF) (p : String × Option String) : List String :=
  match alookup df.cols p.1 with
  | some c =>
    match harmonizeColPolars c p.2 with
    | .ok vals => vals
    | .error _ => []
  | none => []

/-- The harmonized values the pandas harmonizer computes for a detected
column of the original frame. -/
def hvalsPandas (df : DF) (p : String × Unit) : List String :=
  match alookup df.cols p.1 with
  | some c =>
    match harmonizeColPandas c with
    | .ok vals => vals
    | .error _ => []
  | none => []

/-! ## Concrete fixtures -/

/-- A two-row CSV frame with a single ISO date column. -/
def dfW : DF := ⟨[("date", .strCol [some "2020-01-01", some "2024-12-31"])]⟩

/-- Environment for a healthy CSV upload of dfW. -/
def envC1 : FileEnv :=
  { suffix := ".csv", schemaCols := .ok ["date"], sampleDF := .ok dfW,
    fullDF := .ok dfW, scanDF := .ok dfW, harmDF := .ok dfW }

/-- The pending record MetadataManager.create writes for data.csv. -/
def recPending : Rec :=
  [("filename", .s "data.csv"), ("upload_time", .s "2026-10-12T10:00:00"),
   ("file_size", .int 64), ("status", .s "pending"), ("date_column", .null),
   ("earliest_date", .null), ("latest_date", .null), ("error_message", .null)]

def storeC1 : Store := [("data.csv", recPending)]

/-- Cells whose 5-value sample parses as dates in exactly 80 percent of
its values (four ISO dates, one non-date). -/
def cellsC2 : List (Option String) :=
  [some "2024-01-15", some "2024-02-20", some "2024-03-25",
   some "2024-04-30", some "notadate"]

/-- A single string column at exactly the 80 percent fraction. -/
def dfC2 : DF := ⟨[("d", .strCol cellsC2)]⟩

/-- Cells at 75 percent (below the threshold). -/
def cells75 : List (Option String) :=
  [some "2024-01-15", some "2024-02-20", some "2024-03-25", some "notadate"]

/-- A single string column below the threshold. -/
def df75 : DF := ⟨[("d", .strCol cells75)]⟩

/-- The range-extraction fixture of the spec: an ISO value, a later ISO
value, a null and an unparseable cell. -/
def dfC5 : DF :=
  ⟨[("date", .strCol [some "2020-01-01", some "2024-12-31", none, some "garbage"])]⟩

def envC5 : FileEnv :=
  { suffix := ".csv", schemaCols := .ok ["date"], sampleDF := .ok dfC5,
    fullDF := .ok dfC5, scanDF := .ok dfC5, harmDF := .ok dfC5 }

/-- A column that is 80 percent US-format dates with one ISO cell: the
detected format is %m/%d/%Y, under which the ISO cell does not parse. -/
def dfC6 : DF :=
  ⟨[("d", .strCol [some "01/15/2024", some "02/20/2024", some "03/25/2024",
                   some "04/30/2024", some "2024-01-15"])]⟩

/-- A frame that already contains a column named date_harmonized next to
a detected date column named date. -/
def dfC7 : DF :=
  ⟨[("date", .strCol [some "2024-01-15", some "2024-02-20"]),
    ("date_harmonized", .strCol [some "keepme", some "keepme2"])]⟩

/-- A CSV whose lazy scan fails (file missing or corrupt at that read). -/
def envC3bad : FileEnv :=
  { suffix := ".csv", schemaCols := .ok ["date"], sampleDF := .ok dfW,
    fullDF := .ok dfW, scanDF := .error "No such file or directory", harmDF := .ok dfW }

/-- An Excel file whose full materializing read fails with message m
(the sniff of the header succeeded earlier). -/
def envExcelBad (m : String) : FileEnv :=
  { suffix := ".xlsx", schemaCols := .ok ["date"], sampleDF := .ok dfW,
    fullDF := .error m, scanDF := .error m, harmDF := .error m }

def recPendingX : Rec :=
  [("filename", .s "data.xlsx"), ("upload_time", .s "2026-10-12T10:00:00"),
   ("file_size", .int 64), ("status", .s "pending"), ("date_column", .null),
   ("earliest_date", .null), ("latest_date", .null), ("error_message", .null)]

def storeXlsx : Store := [("data.xlsx", recPendingX)]

/-- Environment with two columns, used for the resolution witness. -/
def envC4 : FileEnv :=
  { suffix := ".csv", schemaCols := .ok ["date", "amount"], sampleDF := .ok dfW,
    fullDF := .ok dfW, scanDF := .ok dfW, harmDF := .ok dfW }

/-- An unrecognized extension. -/
def envTxt : FileEnv :=
  { suffix := ".txt", schemaCols := .ok ["date"], sampleDF := .ok dfW,
    fullDF := .ok dfW, scanDF := .ok dfW, harmDF := .ok dfW }

/-- A completed record holding a previously computed range. -/
def recDone : Rec :=
  [("filename", .s "data.csv"), ("upload_time", .s "2026-10-12T10:00:00"),
   ("file_size", .int 64), ("status", .s "completed"), ("date_column", .s "date"),
   ("earliest_date", .s "2020-01-01T00:00:00"),
   ("latest_date", .s "2024-12-31T00:00:00"), ("error_message", .null)]

def storeC9 : Store := [("data.csv", recDone)]

/-- The kwargs of the explicit no-date-column selection in app.py. -/
def kwNoDate : Rec :=
  [("date_column", .null), ("earliest_date", .null), ("latest_date", .null),
   ("user_specified_date_column", .bool true)]

/-- The terminal kwargs a stale auto-detect run writes on completion. -/
def kwStale : Rec :=
  [("status", .s "completed"), ("date_column", .s "date"),
   ("earliest_date", .s "2020-01-01T00:00:00"),
   ("latest_date", .s "2024-12-31T00:00:00"),
   ("user_specified_date_column", .bool false)]

end DsDemo

deriving instance DecidableEq for Except

namespace DsDemo

/-! ## Association-list lemmas -/

theorem alookup_aset_self {α : Type} (l : List (String × α)) (k : String) (v : α) :
    alookup (aset l k v) k = some v := by
  induction l with
  | nil => simp [aset, alookup]
  | cons kv rest ih =>
    by_cases h : kv.1 = k
    · simp [aset, h, alookup]
    · simp [aset, h, alookup, ih]

theorem alookup_aset_ne {α : Type} (l : List (String × α)) (k k' : String) (v : α)
    (h : k' ≠ k) : alookup (aset l k v) k' = alookup l k' := by
  have hne : ¬ k = k' := fun hh => h hh.symm
  induction l with
  | nil => simp [aset, alookup, hne]
  | cons kv rest ih =>
    by_cases hk : kv.1 = k
    · subst hk
      have : ¬ kv.1 = k' := fun hh => h (hh ▸ rfl)
      simp [aset, alookup, this]
    · by_cases hk' : kv.1 = k'
      · simp [aset, hk, alookup, hk', h]
      · simp [aset, hk, alookup, hk', ih]

theorem aset_of_not_mem {α : Type} (l : List (String × α)) (k : String) (v : α)
    (h : k ∉ l.map Prod.fst) : aset l k v = l ++ [(k, v)] := by
  induction l with
  | nil => simp [aset]
  | cons kv rest ih =>
    simp only [List.map_cons, List.mem_cons, not_or] at h
    have hne : ¬ kv.1 = k := fun hh => h.1 hh.symm
    simp [aset, hne, ih h.2]

theorem alookup_append {α : Type} (l1 l2 : List (String × α)) (k : String) :
    alookup (l1 ++ l2) k =
      match alookup l1 k with
      | some v => some v
      | none => alookup l2 k := by
  induction l1 with
  | nil => simp [alookup]
  | cons kv rest ih =>
    by_cases h : kv.1 = k
    · simp [alookup, h]
    · simp [alookup, h, ih]

theorem alookup_isSome_of_mem {α : Type} {l : List (String × α)} {k : String}
    (h : k ∈ l.map Prod.fst) : ∃ v, alookup l k = some v := by
  induction l with
  | nil => simp at h
  | cons kv rest ih =>
    by_cases hk : kv.1 = k
    · exact ⟨kv.2, by simp [alookup, hk]⟩
    · simp only [List.map_cons, List.mem_cons] at h
      rcases h with h | h
      · exact absurd h.symm hk
      · rcases ih h with ⟨v, hv⟩
        exact ⟨v, by simp [alookup, hk, hv]⟩

theorem alookup_eq_none_of_not_mem {α : Type} {l : List (String × α)} {k : String}
    (h : k ∉ l.map Prod.fst) : alookup l k = none := by
  induction l with
  | nil => simp [alookup]
  | cons kv rest ih =>
    simp only [List.map_cons, List.mem_cons, not_or] at h
    have hne : ¬ kv.1 = k := fun hh => h.1 hh.symm
    simp [alookup, hne, ih h.2]

theorem alookup_of_mem_nodup {α : Type} {l : List (String × α)} {k : String} {v : α}
    (hnd : (l.map Prod.fst).Nodup) (h : (k, v) ∈ l) : alookup l k = some v := by
  induction l with
  | nil => simp at h
  | cons kv rest ih =>
    simp only [List.map_cons, List.nodup_cons] at hnd
    rcases List.mem_cons.mp h with h | h
    · subst h; simp [alookup]
    · have : kv.1 ≠ k := by
        intro hh
        exact hnd.1 (hh ▸ (List.mem_map.mpr ⟨(k, v), h, rfl⟩))
      simp [alookup, this, ih hnd.2 h]

theorem mem_of_alookup {α : Type} {l : List (String × α)} {k : String} {v : α}
    (h : alookup l k = some v) : (k, v) ∈ l := by
  induction l with
  | nil => simp [alookup] at h
  | cons kv rest ih =>
    by_cases hk : kv.1 = k
    · simp only [alookup, hk, if_pos rfl] at h
      cases hk
      cases h
      exact List.mem_cons_self _ _
    · simp only [alookup, hk, if_neg hk] at h
      exact List.mem_cons_of_mem _ (ih h)

/-! ## dict.update lemmas -/

theorem recUpdate_nil (r : Rec) : recUpdate r [] = r := rfl

theorem recUpdate_cons (r : Rec) (kv : String × JVal) (rest : Rec) :
    recUpdate r (kv :: rest) = recUpdate (aset r kv.1 kv.2) rest := rfl

/-- Looking a key up after dict.update: the update value wins when the
key is written (its last binding), the previous value otherwise. -/
theorem alookup_recUpdate (kvs : Rec) : ∀ (r : Rec) (k : String),
    alookup (recUpdate r kvs) k =
      match lastLookup kvs k with
      | some v => some v
      | none => alookup r k := by
  induction kvs with
  | nil => intro r k; simp [recUpdate_nil, lastLookup]
  | cons kv rest ih =>
    intro r k
    rw [recUpdate_cons, ih]
    show _ = (match lastLookup (kv :: rest) k with
      | some v => some v
      | none => alookup r k)
    cases h : lastLookup rest k with
    | some v => simp [lastLookup, h]
    | none =>
      by_cases hk : kv.1 = k
      · subst hk
        simp [lastLookup, h, alookup_aset_self]
      · simp [lastLookup, h, hk, alookup_aset_ne r kv.1 k kv.2 (Ne.symm hk)]

/-! ## Digit and padding lemmas -/

theorem digitVal_digitChar {k : Nat} (h : k < 10) :
    digitVal (digitChar k) = some k := by
  interval_cases k <;> decide

theorem digitChar_ne_dash {k : Nat} (h : k < 10) : digitChar k ≠ '-' := by
  interval_cases k <;> decide

theorem decNum_pad4 {y : Nat} (h : y < 10000) : decNum (pad4Chars y) = some y := by
  have h3 : y / 1000 % 10 < 10 := Nat.mod_lt _ (by norm_num)
  have h2 : y / 100 % 10 < 10 := Nat.mod_lt _ (by norm_num)
  have h1 : y / 10 % 10 < 10 := Nat.mod_lt _ (by norm_num)
  have h0 : y % 10 < 10 := Nat.mod_lt _ (by norm_num)
  simp only [pad4Chars, decNum, decNumAux, digitVal_digitChar h3,
    digitVal_digitChar h2, digitVal_digitChar h1, digitVal_digitChar h0]
  congr 1
  omega

theorem decNum_pad2 {m : Nat} (h : m < 100) : decNum (pad2Chars m) = some m := by
  have h1 : m / 10 % 10 < 10 := Nat.mod_lt _ (by norm_num)
  have h0 : m % 10 < 10 := Nat.mod_lt _ (by norm_num)
  simp only [pad2Chars, decNum, decNumAux, digitVal_digitChar h1,
    digitVal_digitChar h0]
  congr 1
  omega

theorem pad4Chars_ne_dash {y : Nat} : ∀ c ∈ pad4Chars y, c ≠ '-' := by
  intro c hc
  simp only [pad4Chars, List.mem_cons, List.not_mem_nil, or_false] at hc
  rcases hc with h | h | h | h <;>
    exact h ▸ digitChar_ne_dash (Nat.mod_lt _ (by norm_num))

theorem pad2Chars_ne_dash {m : Nat} : ∀ c ∈ pad2Chars m, c ≠ '-' := by
  intro c hc
  simp only [pad2Chars, List.mem_cons, List.not_mem_nil, or_false] at hc
  rcases hc with h | h <;>
    exact h ▸ digitChar_ne_dash (Nat.mod_lt _ (by norm_num))

/-! ## splitOnChar lemmas -/

theorem splitOnChar_no_sep (sep : Char) : ∀ (l : List Char),
    (∀ c ∈ l, c ≠ sep) → splitOnChar sep l = [l] := by
  intro l
  induction l with
  | nil => intro _; rfl
  | cons c rest ih =>
    intro h
    have hc : ¬ c = sep := h c (List.mem_cons_self _ _)
    have hrest := ih (fun c' hc' => h c' (List.mem_cons_of_mem _ hc'))
    simp [splitOnChar, hc, hrest]

theorem splitOnChar_append (sep : Char) : ∀ (l1 l2 : List Char),
    (∀ c ∈ l1, c ≠ sep) →
    splitOnChar sep (l1 ++ sep :: l2) = l1 :: splitOnChar sep l2 := by
  intro l1 l2
  induction l1 with
  | nil => intro _; simp [splitOnChar]
  | cons c rest ih =>
    intro h
    have hc : ¬ c = sep := h c (List.mem_cons_self _ _)
    have hrest := ih (fun c' hc' => h c' (List.mem_cons_of_mem _ hc'))
    simp only [List.cons_append, splitOnChar, hc, if_false, List.append_eq, hrest]

/-! ## ISO parse-format roundtrip -/

theorem parse3_formatISO {dd : Date} (hy : dd.year < 10000)
    (hv : validYMD dd.year dd.month dd.day = true) :
    parse3 '-' .ymd (formatISO dd) = some dd := by
  have hm : dd.month < 100 := by
    simp only [validYMD, Bool.and_eq_true, decide_eq_true_eq] at hv
    omega
  have hd : dd.day < 100 := by
    simp only [validYMD, daysInMonth, Bool.and_eq_true, decide_eq_true_eq] at hv
    rcases hv with ⟨⟨⟨_, _⟩, _⟩, hle⟩
    split at hle <;> [skip; split at hle] <;> [split at hle; skip; skip] <;> omega
  have hdata : (formatISO dd).data =
      pad4Chars dd.year ++ '-' :: (pad2Chars dd.month ++ '-' :: pad2Chars dd.day) := rfl
  have hsplit1 := splitOnChar_append '-' (pad4Chars dd.year)
    (pad2Chars dd.month ++ '-' :: pad2Chars dd.day) pad4Chars_ne_dash
  have hsplit2 := splitOnChar_append '-' (pad2Chars dd.month)
    (pad2Chars dd.day) pad2Chars_ne_dash
  have hsplit3 := splitOnChar_no_sep '-' (pad2Chars dd.day) pad2Chars_ne_dash
  have hlen4 : (pad4Chars dd.year).length = 4 := rfl
  have hlen2m : (pad2Chars dd.month).length = 2 := rfl
  have hlen2d : (pad2Chars dd.day).length = 2 := rfl
  simp only [parse3, hdata, hsplit1, hsplit2, hsplit3]
  simp only [numField, hlen4, hlen2m, hlen2d, decNum_pad4 hy, decNum_pad2 hm,
    decNum_pad2 hd]
  norm_num [Option.bind, mkDate, hv]

theorem parseISO_formatISO {dd : Date} (hy : dd.year < 10000)
    (hv : validYMD dd.year dd.month dd.day = true) :
    parseWithFormat "%Y-%m-%d" (formatISO dd) = some dd := by
  show parse3 '-' .ymd (formatISO dd) = some dd
  exact parse3_formatISO hy hv

/-- The per-cell idempotence fact: a canonical ISO cell in a column
whose detected format is the ISO format harmonizes to itself. -/
theorem harmonizeCellStr_iso {dd : Date} (hy : dd.year < 10000)
    (hv : validYMD dd.year dd.month dd.day = true) :
    harmonizeCellStr (some "%Y-%m-%d") (some (formatISO dd)) = formatISO dd := by
  simp [harmonizeCellStr, parseCellPolars, parseISO_formatISO hy hv]

/-! ## Harmonizer structure lemmas -/

theorem harmName_inj {a b : String} (h : a ++ "_harmonized" = b ++ "_harmonized") :
    a = b := by
  have hd : a.data ++ "_harmonized".data = b.data ++ "_harmonized".data := by
    have := congrArg String.data h
    simpa [String.data_append] using this
  have hab : a.data = b.data := List.append_cancel_right hd
  cases a; cases b
  exact congrArg String.mk hab

/-- Structure of both harmonization loops: when the detected names are
distinct, present in the frame, collision-free with the derived names,
and per-column harmonization succeeds, the fold leaves the original
columns untouched and appends one derived column per detected column,
in order. -/
theorem harmStep_fold_structure {α : Type}
    (hcol : Col → α → Except PyError (List String))
    (hvals : String × α → List String) :
    ∀ (L : List (String × α)) (df : DF),
      (L.map Prod.fst).Nodup →
      (∀ p ∈ L, p.1 ∈ df.names) →
      (∀ p ∈ L, ∀ c, alookup df.cols p.1 = some c → hcol c p.2 = .ok (hvals p)) →
      (∀ p ∈ L, (p.1 ++ "_harmonized") ∉ df.names) →
      L.foldlM (harmStep hcol) df
        = .ok ⟨df.cols ++ L.map
            (fun p => (p.1 ++ "_harmonized", Col.strCol ((hvals p).map some)))⟩ := by
  intro L
  induction L with
  | nil =>
    intro df _ _ _ _
    simp only [List.map_nil, List.append_nil]
    rfl
  | cons p L' ih =>
    intro df hnd hmem hok hclash
    have hpmem : p.1 ∈ df.names := hmem p (List.mem_cons_self _ _)
    obtain ⟨c, hc⟩ := alookup_isSome_of_mem hpmem
    have hvalsp : hcol c p.2 = .ok (hvals p) := hok p (List.mem_cons_self _ _) c hc
    have hclashp : (p.1 ++ "_harmonized") ∉ df.names :=
      hclash p (List.mem_cons_self _ _)
    have hstep : harmStep hcol df p
        = .ok ⟨df.cols ++ [(p.1 ++ "_harmonized", Col.strCol ((hvals p).map some))]⟩ := by
      simp only [harmStep, hc, hvalsp]
      rw [aset_of_not_mem df.cols (p.1 ++ "_harmonized") _ hclashp]
    set df1 : DF :=
      ⟨df.cols ++ [(p.1 ++ "_harmonized", Col.strCol ((hvals p).map some))]⟩ with hdf1
    have hnames1 : df1.names = df.names ++ [p.1 ++ "_harmonized"] := by
      simp [hdf1, DF.names]
    have hndL' : (L'.map Prod.fst).Nodup := (List.nodup_cons.mp hnd).2
    have hp1notin : p.1 ∉ L'.map Prod.fst := (List.nodup_cons.mp hnd).1
    have hlook1 : ∀ q ∈ L', alookup df1.cols q.1 = alookup df.cols q.1 := by
      intro q hq
      obtain ⟨cq, hcq⟩ := alookup_isSome_of_mem (hmem q (List.mem_cons_of_mem _ hq))
      rw [hdf1]
      show alookup (df.cols ++ _) q.1 = _
      rw [alookup_append, hcq]
    have hmem1 : ∀ q ∈ L', q.1 ∈ df1.names := by
      intro q hq
      rw [hnames1]
      exact List.mem_append.mpr (Or.inl (hmem q (List.mem_cons_of_mem _ hq)))
    have hok1 : ∀ q ∈ L', ∀ c', alookup df1.cols q.1 = some c' → hcol c' q.2 = .ok (hvals q) := by
      intro q hq c' hc'
      rw [hlook1 q hq] at hc'
      exact hok q (List.mem_cons_of_mem _ hq) c' hc'
    have hclash1 : ∀ q ∈ L', (q.1 ++ "_harmonized") ∉ df1.names := by
      intro q hq
      rw [hnames1]
      intro hin
      rcases List.mem_append.mp hin with hin | hin
      · exact hclash q (List.mem_cons_of_mem _ hq) hin
      · have heq : q.1 ++ "_harmonized" = p.1 ++ "_harmonized" := by simpa using hin
        have : q.1 = p.1 := harmName_inj heq
        exact hp1notin (this ▸ List.mem_map.mpr ⟨q, hq, rfl⟩)
    calc (p :: L').foldlM (harmStep hcol) df
        = (harmStep hcol df p) >>= (fun b => L'.foldlM (harmStep hcol) b) := by
          rw [List.foldlM_cons]
      _ = L'.foldlM (harmStep hcol) df1 := by rw [hstep]; rfl
      _ = .ok ⟨df1.cols ++ L'.map
            (fun q => (q.1 ++ "_harmonized", Col.strCol ((hvals q).map some)))⟩ :=
          ih df1 hndL' hmem1 hok1 hclash1
      _ = .ok ⟨df.cols ++ (p :: L').map
            (fun q => (q.1 ++ "_harmonized", Col.strCol ((hvals q).map some)))⟩ := by
          rw [hdf1]
          simp

/-! ## Detection lemmas -/

theorem detectPolars_mem_names {df : DF} {p : String × Option String}
    (h : p ∈ detectDateColumnsPolars df) :
    ∃ c, (p.1, c) ∈ df.cols ∧ ∃ vals, harmonizeColPolars c p.2 = .ok vals := by
  rcases List.mem_filterMap.mp h with ⟨nc, hnc, hf⟩
  rcases nc with ⟨n, c⟩
  cases c with
  | dtCol cells =>
    simp only [Option.some.injEq] at hf
    subst hf
    exact ⟨.dtCol cells, hnc, _, rfl⟩
  | strCol cells =>
    simp only at hf
    split at hf
    · exact absurd hf (by simp)
    · split at hf
      · split at hf
        · simp only [Option.some.injEq] at hf
          subst hf
          exact ⟨.strCol cells, hnc, _, rfl⟩
        · exact absurd hf (by simp)
      · exact absurd hf (by simp)
  | otherCol len => exact absurd hf (by simp)

theorem map_fst_filterMap_sublist {β : Type}
    (f : String × Col → Option (String × β))
    (hf : ∀ nc q, f nc = some q → q.1 = nc.1) :
    ∀ l : List (String × Col), ((l.filterMap f).map Prod.fst).Sublist (l.map Prod.fst) := by
  intro l
  induction l with
  | nil => simp
  | cons nc rest ih =>
    cases hv : f nc with
    | none =>
      simp only [List.filterMap_cons, hv, List.map_cons]
      exact ih.cons _
    | some q =>
      simp only [List.filterMap_cons, hv, List.map_cons]
      rw [hf nc q hv]
      exact ih.cons₂ _

theorem detectPolars_fst (nc : String × Col) (q : String × Option String) :
    (fun nc : String × Col =>
      match nc.2 with
      | .dtCol _ => some (nc.1, (none : Option String))
      | .strCol cells =>
        let sample := (cells.filterMap id).take HARM_SAMPLE_SIZE
        if sample.length = 0 then none
        else
          match tryParseDatesPolars sample with
          | some (parsed, fmt) =>
            if 5 * (parsed.filterMap id).length ≥ 4 * sample.length then
              some (nc.1, some fmt)
            else none
          | none => none
      | .otherCol _ => none) nc = some q → q.1 = nc.1 := by
  intro h
  rcases nc with ⟨n, c⟩
  cases c with
  | dtCol cells => simp only [Option.some.injEq] at h; rw [← h]
  | strCol cells =>
    simp only at h
    split at h
    · exact absurd h (by simp)
    · split at h
      · split at h
        · simp only [Option.some.injEq] at h; rw [← h]
        · exact absurd h (by simp)
      · exact absurd h (by simp)
  | otherCol len => exact absurd h (by simp)

theorem detectPolars_names_nodup {df : DF} (hnd : df.names.Nodup) :
    ((detectDateColumnsPolars df).map Prod.fst).Nodup :=
  (map_fst_filterMap_sublist _ detectPolars_fst df.cols).nodup hnd

theorem detectPandas_mem_names {df : DF} {n : String}
    (h : n ∈ detectDateColumnsPandas df) :
    ∃ c, (n, c) ∈ df.cols ∧ ∃ vals, harmonizeColPandas c = .ok vals := by
  rcases List.mem_filterMap.mp h with ⟨nc, hnc, hf⟩
  rcases nc with ⟨n', c⟩
  cases c with
  | dtCol cells =>
    simp only [Option.some.injEq] at hf
    subst hf
    exact ⟨.dtCol cells, hnc, _, rfl⟩
  | strCol cells =>
    simp only at hf
    split at hf
    · simp only [Option.some.injEq] at hf
      subst hf
      exact ⟨.strCol cells, hnc, _, rfl⟩
    · exact absurd hf (by simp)
  | otherCol len => exact absurd hf (by simp)

theorem detectPandas_fst_aux (nc : String × Col) (q : String) :
    (fun nc : String × Col =>
      match nc.2 with
      | .dtCol _ => some nc.1
      | .strCol cells => if pandasSampleMatches cells then some nc.1 else none
      | .otherCol _ => none) nc = some q → q = nc.1 := by
  intro h
  rcases nc with ⟨n, c⟩
  cases c with
  | dtCol cells => simpa using h.symm
  | strCol cells =>
    simp only at h
    split at h
    · simpa using h.symm
    · exact absurd h (by simp)
  | otherCol len => exact absurd h (by simp)

theorem detectPandas_names_nodup {df : DF} (hnd : df.names.Nodup) :
    (detectDateColumnsPandas df).Nodup := by
  have hsub : (detectDateColumnsPandas df).Sublist df.names := by
    have := map_fst_filterMap_sublist
      (fun nc : String × Col =>
        (match nc.2 with
          | .dtCol _ => some nc.1
          | .strCol cells => if pandasSampleMatches cells then some nc.1 else none
          | .otherCol _ => none).map (fun n => (n, ())))
      (fun nc q hq => by
        rcases Option.map_eq_some'.mp hq with ⟨n, hn, hq2⟩
        rw [← hq2]
        exact detectPandas_fst_aux nc n hn) df.cols
    have hmapeq : ∀ l : List (String × Col),
        (l.filterMap (fun nc : String × Col =>
          (match nc.2 with
            | .dtCol _ => some nc.1
            | .strCol cells => if pandasSampleMatches cells then some nc.1 else none
            | .otherCol _ => none).map (fun n => (n, ())))).map Prod.fst
        = l.filterMap (fun nc : String × Col =>
            match nc.2 with
            | .dtCol _ => some nc.1
            | .strCol cells => if pandasSampleMatches cells then some nc.1 else none
            | .otherCol _ => none) := by
      intro l
      induction l with
      | nil => rfl
      | cons nc rest ih =>
        cases hv : (match nc.2 with
          | Col.dtCol _ => some nc.1
          | Col.strCol cells => if pandasSampleMatches cells then some nc.1 else none
          | Col.otherCol _ => none) with
        | none => simp [List.filterMap_cons, hv, ih]
        | some n => simp [List.filterMap_cons, hv, ih]
    rw [hmapeq] at this
    exact this
  exact hsub.nodup hnd

/-! ## Claim theorems -/

/-- C1: the claim states that a run with a resolved date column and no
read or range exception ends with metadata status completed, the
resolved column, the range and the user_specified flag.  On the code
this fails: FileMetadata has no user_specified_date_column field, so
the terminal update of _process_file_sync saves the completed record
and then raises TypeError constructing FileMetadata; the except block
overwrites the status to error (and itself re-raises).  This theorem
evaluates the orchestrator at such a healthy run: the record ends with
status error (holding the stale completed values and the rogue key),
and the call raises the TypeError instead of returning success. -/
theorem C1_completed_update_raises :
    (alookup (processFileSync envC1 storeC1 "data.csv" (some "date")).1 "data.csv").bind
        (fun r => alookup r "status") = some (.s "error")
    ∧ (alookup (processFileSync envC1 storeC1 "data.csv" (some "date")).1 "data.csv").bind
        (fun r => alookup r "date_column") = some (.s "date")
    ∧ (alookup (processFileSync envC1 storeC1 "data.csv" (some "date")).1 "data.csv").bind
        (fun r => alookup r "earliest_date") = some (.s "2020-01-01T00:00:00")
    ∧ (alookup (processFileSync envC1 storeC1 "data.csv" (some "date")).1 "data.csv").bind
        (fun r => alookup r "latest_date") = some (.s "2024-12-31T00:00:00")
    ∧ (alookup (processFileSync envC1 storeC1 "data.csv" (some "date")).1 "data.csv").bind
        (fun r => alookup r "user_specified_date_column") = some (.bool true)
    ∧ (processFileSync envC1 storeC1 "data.csv" (some "date")).2
        = .error (.typeError "unexpected keyword argument user_specified_date_column") := by
  decide

/-- C2 counterexample: a string column whose first-100 non-null sample
parses as dates in exactly 80 percent of its values (four of five), yet
detect_date_column does not select it (the source requires the fraction
to strictly exceed 0.8). -/
theorem C2_exact80_not_selected :
    5 * (((sample100 cellsC2).map parseGeneric).filterMap id).length
      = 4 * (sample100 cellsC2).length
    ∧ detect_date_column dfC2 = none := by
  decide

/-- C3 counterexample: a total failure of the lazy CSV scan (for
example the file was deleted or is corrupt) is absorbed by
get_date_range_lazy into a successful (None, None) result instead of
propagating as an error. -/
theorem C3_total_failure_absorbed :
    envC3bad.scanDF = .error "No such file or directory"
    ∧ get_date_range_lazy envC3bad "date" = (none, none) := by
  decide

/-- C6 counterexample: a column that is 80 percent US-format dates with
one canonical ISO cell is detected with format %m/%d/%Y; the ISO cell
does not parse under that format and harmonizes to the empty string,
not to itself. -/
theorem C6_iso_cell_not_preserved :
    isIsoDateString "2024-01-15" = true
    ∧ (alookup dfC6.cols "d") = some (.strCol [some "01/15/2024", some "02/20/2024",
        some "03/25/2024", some "04/30/2024", some "2024-01-15"])
    ∧ detectDateColumnsPolars dfC6 = [("d", some "%m/%d/%Y")]
    ∧ (harmonizeDatesPolars dfC6 (detectDateColumnsPolars dfC6)).map
        (fun r => alookup r.cols "d_harmonized")
      = .ok (some (.strCol [some "2024-01-15", some "2024-02-20", some "2024-03-25",
          some "2024-04-30", some ""])) := by
  decide

/-- C7 counterexample: when the input already contains a column named
date_harmonized next to a detected date column named date, the
harmonizer overwrites that original column in place (its cells keepme,
keepme2 are destroyed) and appends nothing, contradicting the claim for
every input dataset. -/
theorem C7_existing_column_overwritten :
    detectDateColumnsPolars dfC7 = [("date", some "%Y-%m-%d")]
    ∧ harmonizeDatesPolars dfC7 (detectDateColumnsPolars dfC7)
      = .ok ⟨[("date", .strCol [some "2024-01-15", some "2024-02-20"]),
              ("date_harmonized", .strCol [some "2024-01-15", some "2024-02-20"])]⟩ := by
  decide

/-- C9 counterexample: after the explicit no-date-column selection
clears the record, a stale auto-detect completion landing afterwards is
applied unconditionally and resurrects the old column and range. -/
theorem C9_stale_write_resurrects :
    (alookup (metadataUpdate storeC9 "data.csv" kwNoDate).1 "data.csv").bind
        (fun r => alookup r "date_column") = some .null
    ∧ (alookup (metadataUpdate (metadataUpdate storeC9 "data.csv" kwNoDate).1
          "data.csv" kwStale).1 "data.csv").bind
        (fun r => alookup r "date_column") = some (.s "date")
    ∧ (alookup (metadataUpdate (metadataUpdate storeC9 "data.csv" kwNoDate).1
          "data.csv" kwStale).1 "data.csv").bind
        (fun r => alookup r "earliest_date") = some (.s "2020-01-01T00:00:00") := by
  decide

/-- Reduction of bind on a successful Except value (do-notation step). -/
theorem except_ok_bind {E A B : Type} (a : A) (f : A → Except E B) :
    (Except.ok a : Except E A) >>= f = f a := rfl

/-- Reduction of bind on a failed Except value (a raised exception
skips the rest of the block). -/
theorem except_error_bind {E A B : Type} (e : E) (f : A → Except E B) :
    (Except.error e : Except E A) >>= f = .error e := rfl

/-- C9 amended: metadata writes carry no run sequence number and are
applied unconditionally in arrival order, so for two successive updates
to an existing record the later write wins on every key it sets — a
superseded run's late terminal write is not discarded but overwrites
the newer run's result. -/
theorem C9_last_writer_wins :
    ∀ (store : Store) (f : String) (r w1 w2 : Rec) (k : String) (v : JVal),
      alookup store f = some r →
      lastLookup w2 k = some v →
      (alookup (metadataUpdate (metadataUpdate store f w1).1 f w2).1 f).bind
          (fun r2 => alookup r2 k) = some v := by
  intro store f r w1 w2 k v hr hw
  have h1 : (metadataUpdate store f w1).1 = aset store f (recUpdate r w1) := by
    cases hfm : fileMetadataOfRec (recUpdate r w1) <;>
      simp [metadataUpdate, hr, hfm]
  have h2 : alookup (aset store f (recUpdate r w1)) f = some (recUpdate r w1) :=
    alookup_aset_self _ _ _
  have h3 : (metadataUpdate (aset store f (recUpdate r w1)) f w2).1
      = aset (aset store f (recUpdate r w1)) f (recUpdate (recUpdate r w1) w2) := by
    cases hfm : fileMetadataOfRec (recUpdate (recUpdate r w1) w2) <;>
      simp [metadataUpdate, h2, hfm]
  rw [h1, h3, alookup_aset_self]
  show alookup (recUpdate (recUpdate r w1) w2) k = some v
  rw [alookup_recUpdate, hw]

/-- C9 witness: the last-writer-wins theorem applied to the concrete
no-date-column selection followed by the stale completed write. -/
theorem C9_last_writer_wins_witness :
    (alookup (metadataUpdate (metadataUpdate storeC9 "data.csv" kwNoDate).1
        "data.csv" kwStale).1 "data.csv").bind
      (fun r2 => alookup r2 "date_column") = some (.s "date") :=
  C9_last_writer_wins storeC9 "data.csv" recDone kwNoDate kwStale
    "date_column" (.s "date") (by decide) (by decide)

/-- C10: both range extractors return either two null endpoints or two
non-null endpoints: the earliest component is none exactly when the
latest component is. -/
theorem C10_endpoints_none_iff :
    (∀ (env : FileEnv) (c : String),
      ((get_date_range_lazy env c).1 = none ↔ (get_date_range_lazy env c).2 = none))
    ∧ (∀ (df : DF) (c : String),
      ((get_date_range df c).1 = none ↔ (get_date_range df c).2 = none)) := by
  constructor
  · intro env c
    unfold get_date_range_lazy
    dsimp only
    repeat' split
    all_goals simp
  · intro df c
    unfold get_date_range
    dsimp only
    repeat' split
    all_goals simp

/-- C10 witness: instantiation at a concrete environment and frame. -/
theorem C10_endpoints_none_iff_witness :
    ((get_date_range_lazy envC5 "date").1 = none ↔ (get_date_range_lazy envC5 "date").2 = none)
    ∧ ((get_date_range dfC5 "date").1 = none ↔ (get_date_range dfC5 "date").2 = none) :=
  ⟨C10_endpoints_none_iff.1 envC5 "date", C10_endpoints_none_iff.2 dfC5 "date"⟩

/-- C4: resolution of a user-specified column: when the name is in the
Sniffer's column list it is used directly, marked user specified, and
the Classifier never runs; when absent, this raises nothing and the
orchestrator falls back to detect_date_column on the bounded sample. -/
theorem C4_user_specified_resolution :
    (∀ (env : FileEnv) (s : String) (cols : List String),
      s ≠ "" → get_column_names env = .ok cols → s ∈ cols →
      resolveDateColumn env (some s) = .ok ⟨some s, true, false⟩)
    ∧ (∀ (env : FileEnv) (s : String) (cols : List String) (df : DF),
      s ≠ "" → get_column_names env = .ok cols → s ∉ cols →
      read_file env (some DETECTION_SAMPLE_SIZE) = .ok df →
      resolveDateColumn env (some s) = .ok ⟨detect_date_column df, false, true⟩) := by
  have hemp : ∀ s : String, s ≠ "" → s.isEmpty = false := by
    intro s hne
    exact Bool.eq_false_iff.mpr (fun h => hne ((String.isEmpty_iff s).mp h))
  constructor
  · intro env s cols hne hcols hmem
    simp [resolveDateColumn, hemp s hne, hcols, except_ok_bind, hmem]
  · intro env s cols df hne hcols hmem hdf
    simp [resolveDateColumn, hemp s hne, hcols, except_ok_bind, hmem, hdf]

/-- C4 witness: a present user column is used directly without the
classifier; an absent one falls back to detection without error. -/
theorem C4_user_specified_resolution_witness :
    resolveDateColumn envC4 (some "date") = .ok ⟨some "date", true, false⟩
    ∧ resolveDateColumn envC4 (some "nope") = .ok ⟨detect_date_column dfW, false, true⟩ :=
  ⟨C4_user_specified_resolution.1 envC4 "date" ["date", "amount"]
      (by decide) rfl (by decide),
   C4_user_specified_resolution.2 envC4 "nope" ["date", "amount"] dfW
      (by decide) rfl (by decide) rfl⟩

/-- C3 amended: range extraction never raises on malformed cells, and
the lazy CSV extractor never raises at all — a total failure of the
scan is likewise absorbed into (None, None), as its docstring states;
only in the materializing Excel path does a file-level read failure
propagate to the orchestrator, which records terminal status error
with the message. -/
theorem C3_error_handling_amended :
    (∀ (env : FileEnv) (c : String) (m : String),
      strLower env.suffix = ".csv" → env.scanDF = .error m →
      get_date_range_lazy env c = (none, none))
    ∧ (∀ m : String,
      (alookup (processFileSync (envExcelBad m) storeXlsx "data.xlsx" (some "date")).1
          "data.xlsx").bind (fun r => alookup r "status") = some (.s "error")
      ∧ (alookup (processFileSync (envExcelBad m) storeXlsx "data.xlsx" (some "date")).1
          "data.xlsx").bind (fun r => alookup r "error_message") = some (.s m)
      ∧ (processFileSync (envExcelBad m) storeXlsx "data.xlsx" (some "date")).2
          = .ok (.errored m)) := by
  constructor
  · intro env c m h1 h2
    unfold get_date_range_lazy
    rw [h1, h2]
    simp
  · intro m
    exact ⟨rfl, rfl, rfl⟩

/-- Lifted read failures are IOError exceptions, never the ValueError
of the unsupported-format check. -/
theorem liftRead_ne_valueError {α : Type} (x : Except String α) (m : String) :
    liftRead x ≠ .error (.valueError m) := by
  cases x <;> simp [liftRead]

/-- The per-column harmonizers never raise a ValueError. -/
theorem harmonizeColPolars_ne_valueError (c : Col) (fmt : Option String) (m : String) :
    harmonizeColPolars c fmt ≠ .error (.valueError m) := by
  cases c <;> simp [harmonizeColPolars]

theorem harmonizeColPandas_ne_valueError (c : Col) (m : String) :
    harmonizeColPandas c ≠ .error (.valueError m) := by
  cases c <;> simp [harmonizeColPandas]

/-- The harmonization fold raises a ValueError only if a per-column
step does. -/
theorem foldlM_harmStep_ne_valueError {α : Type}
    (hcol : Col → α → Except PyError (List String))
    (h : ∀ c a m, hcol c a ≠ .error (.valueError m)) :
    ∀ (L : List (String × α)) (df : DF) (m : String),
      L.foldlM (harmStep hcol) df ≠ .error (.valueError m) := by
  intro L
  induction L with
  | nil =>
    intro df m hcontra
    rw [show List.foldlM (harmStep hcol) df ([] : List (String × α))
      = Except.ok df from rfl] at hcontra
    exact Except.noConfusion hcontra
  | cons p L' ih =>
    intro df m hcontra
    rw [List.foldlM_cons] at hcontra
    cases hstep : harmStep hcol df p with
    | error e =>
      rw [hstep] at hcontra
      have he : e = .valueError m := by
        simpa [except_error_bind] using hcontra
      rw [he] at hstep
      unfold harmStep at hstep
      cases halo : alookup df.cols p.1 with
      | none => rw [halo] at hstep; exact absurd hstep (by simp)
      | some c =>
        rw [halo] at hstep
        dsimp only at hstep
        cases hc : hcol c p.2 with
        | ok vals => rw [hc] at hstep; exact absurd hstep (by simp)
        | error e' =>
          rw [hc] at hstep
          simp only [Except.error.injEq] at hstep
          exact h c p.2 m (hstep ▸ hc)
    | ok df1 =>
      rw [hstep] at hcontra
      rw [except_ok_bind] at hcontra
      exact ih df1 m hcontra

/-- C8: the Sniffer (get_column_names) and the Harmonizer
(get_harmonized_csv) raise the unsupported-format ValueError exactly
when the lowercased extension is outside the recognized set; for
recognized extensions any failure is an I/O or schema exception, never
that error. -/
theorem C8_unsupported_format_iff :
    ∀ env : FileEnv,
      ((∃ m, get_column_names env = .error (.valueError m))
          ↔ strLower env.suffix ∉ recognizedSuffixes)
      ∧ ((∃ m, get_harmonized_csv env = .error (.valueError m))
          ↔ strLower env.suffix ∉ recognizedSuffixes) := by
  intro env
  by_cases hin : strLower env.suffix ∈ recognizedSuffixes
  · have hcases : strLower env.suffix = ".csv" ∨ strLower env.suffix = ".xlsx"
        ∨ strLower env.suffix = ".xls" := by
      simpa [recognizedSuffixes] using hin
    have hcols : ∀ m, get_column_names env ≠ .error (.valueError m) := by
      intro m hm
      unfold get_column_names at hm
      rcases hcases with h | h | h <;> rw [h] at hm <;> simp at hm <;>
        exact liftRead_ne_valueError _ _ hm
    have hharm : ∀ m, get_harmonized_csv env ≠ .error (.valueError m) := by
      intro m hm
      unfold get_harmonized_csv at hm
      rcases hcases with h | h | h <;> rw [h] at hm <;> simp only [] at hm <;>
        [skip; (rw [if_neg (by decide), if_pos (by decide)] at hm);
          (rw [if_neg (by decide), if_pos (by decide)] at hm)] <;>
      · cases hd : env.harmDF with
        | error me =>
          rw [hd] at hm
          exact absurd hm (by simp [liftRead, except_error_bind])
        | ok df =>
          rw [hd] at hm
          rw [show liftRead (Except.ok df : Except String DF)
            = (.ok df : Except PyError DF) from rfl, except_ok_bind] at hm
          first
          | (cases hh : harmonizeDatesPolars df (detectDateColumnsPolars df) with
             | error e =>
               rw [hh] at hm
               have : e = .valueError m := by simpa [except_error_bind] using hm
               exact foldlM_harmStep_ne_valueError _
                 (fun c a mm => harmonizeColPolars_ne_valueError c a mm)
                 _ df m (this ▸ hh)
             | ok hdf =>
               rw [hh] at hm
               exact absurd hm (by simp [except_ok_bind]))
          | (cases hh : harmonizeDatesPandas df (detectDateColumnsPandas df) with
             | error e =>
               rw [hh] at hm
               have : e = .valueError m := by simpa [except_error_bind] using hm
               exact foldlM_harmStep_ne_valueError _
                 (fun c a mm => harmonizeColPandas_ne_valueError c mm)
                 _ df m (this ▸ hh)
             | ok hdf =>
               rw [hh] at hm
               exact absurd hm (by simp [except_ok_bind]))
    constructor
    · constructor
      · rintro ⟨m, hm⟩
        exact absurd hm (hcols m)
      · intro hno
        exact absurd hin hno
    · constructor
      · rintro ⟨m, hm⟩
        exact absurd hm (hharm m)
      · intro hno
        exact absurd hin hno
  · have h1 : ¬ strLower env.suffix = ".csv" := by
      intro h; exact hin (by simp [recognizedSuffixes, h])
    have h2 : ¬ strLower env.suffix = ".xlsx" := by
      intro h; exact hin (by simp [recognizedSuffixes, h])
    have h3 : ¬ strLower env.suffix = ".xls" := by
      intro h; exact hin (by simp [recognizedSuffixes, h])
    constructor
    · constructor
      · intro _; exact hin
      · intro _
        refine ⟨"Unsupported file type: " ++ strLower env.suffix, ?_⟩
        unfold get_column_names
        rw [if_neg h1, if_neg (by simp [h2, h3])]
    · constructor
      · intro _; exact hin
      · intro _
        refine ⟨"Unsupported file type: " ++ strLower env.suffix, ?_⟩
        unfold get_harmonized_csv
        rw [if_neg h1, if_neg (by simp [h2, h3])]

/-- C8 witness: a .txt extension raises the unsupported-format error in
both components; a .csv extension does not raise it. -/
theorem C8_unsupported_format_iff_witness :
    (∃ m, get_column_names envTxt = .error (.valueError m))
    ∧ (∃ m, get_harmonized_csv envTxt = .error (.valueError m))
    ∧ ¬ (∃ m, get_column_names envC1 = .error (.valueError m)) :=
  ⟨(C8_unsupported_format_iff envTxt).1.mpr (by decide),
   (C8_unsupported_format_iff envTxt).2.mpr (by decide),
   fun h => absurd ((C8_unsupported_format_iff envC1).1.mp h) (by decide)⟩

/-- C2 amended: the two classifiers disagree at the boundary, and the
claim holds only for the harmonizer's classifier.  detect_date_column
(date_detector.py) selects a string column only when the parsed
fraction of its first-100 non-null sample strictly exceeds 0.8, so at
exactly 80 percent (and below) it selects nothing; the polars detection
of the harmonizer selects at fraction greater than or equal to 0.8, so
at exactly 80 percent it does select (with the matching format); below
the threshold neither selects. -/
theorem C2_threshold_amended :
    (∀ df : DF,
      (∀ nc ∈ df.cols, nc.2.isDt = false) →
      (∀ n cells, (n, Col.strCol cells) ∈ df.cols → detectSampleMatches cells = false) →
      detect_date_column df = none)
    ∧ (∀ (n : String) (cells : List (Option String)),
      (sample100 cells).length ≠ 0 →
      5 * (((sample100 cells).map (parseWithFormat "%Y-%m-%d")).filterMap id).length
          ≥ 4 * (sample100 cells).length →
      detectDateColumnsPolars ⟨[(n, .strCol cells)]⟩ = [(n, some "%Y-%m-%d")])
    ∧ (∀ (n : String) (cells : List (Option String)),
      (∀ fmt ∈ DATE_FORMATS,
        5 * (((sample100 cells).map (parseWithFormat fmt)).filterMap id).length
            < 4 * (sample100 cells).length) →
      detectDateColumnsPolars ⟨[(n, .strCol cells)]⟩ = []) := by
  refine ⟨?_, ?_, ?_⟩
  · intro df hdt hstr
    have h1 : df.cols.findSome? (fun nc => match nc.2 with
        | Col.dtCol _ => some nc.1
        | _ => none) = none := by
      rw [List.findSome?_eq_none_iff]
      intro nc hnc
      have hd := hdt nc hnc
      cases hc : nc.2 with
      | dtCol cells => rw [hc] at hd; exact absurd hd (by simp [Col.isDt])
      | strCol cells => simp [hc]
      | otherCol len => simp [hc]
    have h2 : df.cols.findSome? (fun nc => match nc.2 with
        | Col.strCol cells => if detectSampleMatches cells then some nc.1 else none
        | _ => none) = none := by
      rw [List.findSome?_eq_none_iff]
      intro nc hnc
      cases hc : nc.2 with
      | dtCol cells => simp [hc]
      | strCol cells =>
        have hmem2 : (nc.1, Col.strCol cells) ∈ df.cols := by
          rw [← hc]
          simpa using hnc
        simp [hc, hstr nc.1 cells hmem2]
      | otherCol len => simp [hc]
    simp [detect_date_column, h1, h2]
  · intro n cells hlen hfrac
    have hs : sample100 cells = (cells.filterMap id).take HARM_SAMPLE_SIZE := rfl
    rw [hs] at hlen hfrac
    have htry : tryParseDatesPolars ((cells.filterMap id).take HARM_SAMPLE_SIZE)
        = some (((cells.filterMap id).take HARM_SAMPLE_SIZE).map
            (parseWithFormat "%Y-%m-%d"), "%Y-%m-%d") := by
      unfold tryParseDatesPolars
      rw [show DATE_FORMATS = "%Y-%m-%d" :: ["%m/%d/%Y", "%d/%m/%Y", "%Y/%m/%d",
        "%m-%d-%Y", "%d-%m-%Y", "%Y%m%d", "%B %d, %Y", "%b %d, %Y", "%d %B %Y",
        "%d %b %Y"] from rfl]
      rw [List.findSome?_cons]
      simp only [if_pos hfrac]
    unfold detectDateColumnsPolars
    simp only [List.filterMap_cons, List.filterMap_nil]
    rw [if_neg hlen]
    rw [htry]
    simp only [if_pos hfrac]
  · intro n cells hall
    by_cases hlen : ((cells.filterMap id).take HARM_SAMPLE_SIZE).length = 0
    · unfold detectDateColumnsPolars
      simp only [List.filterMap_cons, List.filterMap_nil]
      rw [if_pos hlen]
    · have htry : tryParseDatesPolars ((cells.filterMap id).take HARM_SAMPLE_SIZE)
          = none := by
        unfold tryParseDatesPolars
        rw [List.findSome?_eq_none_iff]
        intro fmt hfmt
        have hlt := hall fmt hfmt
        rw [show sample100 cells = (cells.filterMap id).take HARM_SAMPLE_SIZE from rfl]
          at hlt
        rw [if_neg (by omega)]
      unfold detectDateColumnsPolars
      simp only [List.filterMap_cons, List.filterMap_nil]
      rw [if_neg hlen]
      rw [htry]

/-- C2 witness: the amended theorem applied at the concrete 80 percent
column (pandas classifier skips it, polars classifier selects it with
the ISO format) and at a below-threshold column (neither selects). -/
theorem C2_threshold_amended_witness :
    detect_date_column dfC2 = none
    ∧ detectDateColumnsPolars dfC2 = [("d", some "%Y-%m-%d")]
    ∧ detectDateColumnsPolars df75 = [] := by
  refine ⟨?_, ?_, ?_⟩
  · apply C2_threshold_amended.1
    · intro nc hnc
      simp only [dfC2, List.mem_cons, List.not_mem_nil, or_false] at hnc
      subst hnc
      decide
    · intro n cells hmem
      simp only [dfC2, List.mem_cons, List.not_mem_nil, or_false,
        Prod.mk.injEq, Col.strCol.injEq] at hmem
      rw [hmem.2]
      decide
  · exact C2_threshold_amended.2.1 "d" cellsC2 (by decide) (by decide)
  · exact C2_threshold_amended.2.2 "d" cells75 (by decide)

/-- C5: range extraction excludes nulls and unparseable cells without
raising: on the spec's fixture both extractors return the 2020-01-01
and 2024-12-31 endpoints (the lazy extractor as ISO datetime strings at
midnight), and whenever zero values of a string column parse, both
return (None, None). -/
theorem C5_range_excludes_invalid :
    get_date_range dfC5 "date" = (some ⟨2020, 1, 1⟩, some ⟨2024, 12, 31⟩)
    ∧ get_date_range_lazy envC5 "date"
        = (some "2020-01-01T00:00:00", some "2024-12-31T00:00:00")
    ∧ (∀ (df : DF) (c : String) (cells : List (Option String)),
        alookup df.cols c = some (.strCol cells) →
        (∀ s ∈ cells.filterMap id, parseGeneric s = none) →
        get_date_range df c = (none, none))
    ∧ (∀ (env : FileEnv) (c : String) (df : DF) (cells : List (Option String)),
        strLower env.suffix = ".csv" → env.scanDF = .ok df →
        alookup df.cols c = some (.strCol cells) →
        (∀ s ∈ cells.filterMap id, parseGeneric s = none) →
        get_date_range_lazy env c = (none, none)) := by
  have hnil : ∀ (cells : List (Option String)),
      (∀ s ∈ cells.filterMap id, parseGeneric s = none) →
      (cells.map (fun o => o.bind parseGeneric)).filterMap id = [] := by
    intro cells h2
    rw [List.filterMap_eq_nil_iff]
    intro o ho
    rcases List.mem_map.mp ho with ⟨o0, ho0, rfl⟩
    cases o0 with
    | none => rfl
    | some s =>
      show parseGeneric s = none
      exact h2 s (List.mem_filterMap.mpr ⟨some s, ho0, rfl⟩)
  refine ⟨by decide, by decide, ?_, ?_⟩
  · intro df c cells h1 h2
    unfold get_date_range
    rw [h1]
    show (match listMin ((coerceCol (Col.strCol cells)).filterMap id),
            listMax ((coerceCol (Col.strCol cells)).filterMap id) with
          | some a, some b => (some a, some b)
          | _, _ => (none, none)) = (none, none)
    rw [show coerceCol (Col.strCol cells)
        = cells.map (fun o => o.bind parseGeneric) from rfl, hnil cells h2]
    rfl
  · intro env c df cells h0 hscan h1 h2
    unfold get_date_range_lazy
    rw [h0, hscan]
    simp only [ne_eq, not_true_eq_false, if_false]
    rw [h1]
    show (match listMin ((cells.map (fun o => o.bind parseGeneric)).filterMap id),
            listMax ((cells.map (fun o => o.bind parseGeneric)).filterMap id) with
          | some a, some b => (some (isoformatDT a), some (isoformatDT b))
          | _, _ => (none, none)) = (none, none)
    rw [hnil cells h2]
    rfl

/-- C5 witness: the zero-valid branches applied at a concrete frame
whose only values are a null and an unparseable string. -/
theorem C5_range_excludes_invalid_witness :
    get_date_range ⟨[("x", .strCol [some "garbage", none])]⟩ "x" = (none, none)
    ∧ get_date_range_lazy
        { suffix := ".csv", schemaCols := .ok ["x"],
          sampleDF := .ok ⟨[("x", .strCol [some "garbage", none])]⟩,
          fullDF := .ok ⟨[("x", .strCol [some "garbage", none])]⟩,
          scanDF := .ok ⟨[("x", .strCol [some "garbage", none])]⟩,
          harmDF := .ok ⟨[("x", .strCol [some "garbage", none])]⟩ } "x"
      = (none, none) :=
  ⟨C5_range_excludes_invalid.2.2.1 ⟨[("x", .strCol [some "garbage", none])]⟩ "x"
      [some "garbage", none] rfl (by decide),
   C5_range_excludes_invalid.2.2.2 _ "x" ⟨[("x", .strCol [some "garbage", none])]⟩
      [some "garbage", none] rfl rfl rfl (by decide)⟩

/-- The polars harmonizer on its own detection output: original columns
unchanged, one derived column appended per detected column. -/
theorem harmonizePolars_structure (df : DF) (hnd : df.names.Nodup)
    (hclash : ∀ p ∈ detectDateColumnsPolars df, (p.1 ++ "_harmonized") ∉ df.names) :
    harmonizeDatesPolars df (detectDateColumnsPolars df)
      = .ok ⟨df.cols ++ (detectDateColumnsPolars df).map
          (fun p => (p.1 ++ "_harmonized", Col.strCol ((hvalsPolars df p).map some)))⟩ := by
  apply harmStep_fold_structure (fun c fmt => harmonizeColPolars c fmt) (hvalsPolars df)
  · exact detectPolars_names_nodup hnd
  · intro p hp
    rcases detectPolars_mem_names hp with ⟨c, hc, _⟩
    exact List.mem_map.mpr ⟨(p.1, c), hc, rfl⟩
  · intro p hp c hc
    rcases detectPolars_mem_names hp with ⟨c0, hc0, vals, hvals0⟩
    have hl : alookup df.cols p.1 = some c0 := alookup_of_mem_nodup hnd hc0
    rw [hl] at hc
    cases hc
    simp only [hvalsPolars, hl, hvals0]
  · exact hclash

/-- The pandas harmonizer on its own detection output: same structure. -/
theorem harmonizePandas_structure (df : DF) (hnd : df.names.Nodup)
    (hclash : ∀ n ∈ detectDateColumnsPandas df, (n ++ "_harmonized") ∉ df.names) :
    harmonizeDatesPandas df (detectDateColumnsPandas df)
      = .ok ⟨df.cols ++ (detectDateColumnsPandas df).map
          (fun n => (n ++ "_harmonized",
            Col.strCol ((hvalsPandas df (n, ())).map some)))⟩ := by
  unfold harmonizeDatesPandas
  rw [harmStep_fold_structure (fun c _ => harmonizeColPandas c) (hvalsPandas df)
    ((detectDateColumnsPandas df).map (fun c => (c, ()))) df]
  · rw [List.map_map]
    rfl
  · rw [List.map_map]
    have : (Prod.fst ∘ fun c : String => (c, ())) = id := rfl
    rw [this, List.map_id]
    exact detectPandas_names_nodup hnd
  · intro p hp
    rcases List.mem_map.mp hp with ⟨n, hn, rfl⟩
    rcases detectPandas_mem_names hn with ⟨c, hc, _⟩
    exact List.mem_map.mpr ⟨(n, c), hc, rfl⟩
  · intro p hp c hc
    rcases List.mem_map.mp hp with ⟨n, hn, rfl⟩
    rcases detectPandas_mem_names hn with ⟨c0, hc0, vals, hvals0⟩
    have hl : alookup df.cols n = some c0 := alookup_of_mem_nodup hnd hc0
    rw [show ((n, ()) : String × Unit).1 = n from rfl, hl] at hc
    cases hc
    simp only [hvalsPandas, hl, hvals0]
  · intro p hp
    rcases List.mem_map.mp hp with ⟨n, hn, rfl⟩
    exact hclash n hn

/-- Looking up a derived column among the appended ones. -/
theorem alookup_harm_map {β γ : Type} (g : String × β → γ) :
    ∀ (L : List (String × β)), (L.map Prod.fst).Nodup →
      ∀ (c : String) (f0 : β), (c, f0) ∈ L →
      alookup (L.map (fun p => (p.1 ++ "_harmonized", g p))) (c ++ "_harmonized")
        = some (g (c, f0)) := by
  intro L
  induction L with
  | nil => intro _ c f0 h; simp at h
  | cons p rest ih =>
    intro hnd c f0 hmem
    simp only [List.map_cons, List.nodup_cons] at hnd
    rcases List.mem_cons.mp hmem with h | h
    · subst h
      simp [alookup]
    · have hne : ¬ p.1 ++ "_harmonized" = c ++ "_harmonized" := by
        intro heq
        have : p.1 = c := harmName_inj heq
        exact hnd.1 (this ▸ List.mem_map.mpr ⟨(c, f0), h, rfl⟩)
      simp only [List.map_cons, alookup, hne, if_neg hne]
      exact ih hnd.2 c f0 h

/-- C7: provided no input column is itself named like a derived column,
harmonization leaves every original column unmodified in its original
position, appends each derived col_harmonized column after all original
columns, and maps null and unparseable cells to the empty string (the
proviso is forced by the counterexample: a pre-existing col_harmonized
column is overwritten in place).  Stated for both harmonizers on their
own detection output. -/
theorem C7_frame_append :
    (∀ df : DF, df.names.Nodup →
      (∀ p ∈ detectDateColumnsPolars df, (p.1 ++ "_harmonized") ∉ df.names) →
      harmonizeDatesPolars df (detectDateColumnsPolars df)
        = .ok ⟨df.cols ++ (detectDateColumnsPolars df).map
            (fun p => (p.1 ++ "_harmonized",
              Col.strCol ((hvalsPolars df p).map some)))⟩)
    ∧ (∀ df : DF, df.names.Nodup →
      (∀ n ∈ detectDateColumnsPandas df, (n ++ "_harmonized") ∉ df.names) →
      harmonizeDatesPandas df (detectDateColumnsPandas df)
        = .ok ⟨df.cols ++ (detectDateColumnsPandas df).map
            (fun n => (n ++ "_harmonized",
              Col.strCol ((hvalsPandas df (n, ())).map some)))⟩)
    ∧ (∀ fmt, harmonizeCellStr fmt none = "")
    ∧ (∀ fmt s, parseCellPolars fmt s = none → harmonizeCellStr fmt (some s) = "") :=
  ⟨harmonizePolars_structure, harmonizePandas_structure,
   fun _ => rfl,
   fun fmt s h => by simp [harmonizeCellStr, h]⟩

/-- C7 witness: the frame theorem applied at a concrete two-row frame,
plus the empty-string mapping at a null and an unparseable cell. -/
theorem C7_frame_append_witness :
    harmonizeDatesPolars dfW (detectDateColumnsPolars dfW)
      = .ok ⟨dfW.cols ++ (detectDateColumnsPolars dfW).map
          (fun p => (p.1 ++ "_harmonized", Col.strCol ((hvalsPolars dfW p).map some)))⟩
    ∧ harmonizeDatesPandas dfW (detectDateColumnsPandas dfW)
      = .ok ⟨dfW.cols ++ (detectDateColumnsPandas dfW).map
          (fun n => (n ++ "_harmonized",
            Col.strCol ((hvalsPandas dfW (n, ())).map some)))⟩
    ∧ harmonizeCellStr (some "%Y-%m-%d") none = ""
    ∧ harmonizeCellStr (some "%Y-%m-%d") (some "garbage") = "" :=
  ⟨C7_frame_append.1 dfW (by decide) (by decide),
   C7_frame_append.2.1 dfW (by decide) (by decide),
   C7_frame_append.2.2.1 (some "%Y-%m-%d"),
   C7_frame_append.2.2.2 (some "%Y-%m-%d") "garbage" (by decide)⟩

/-- C6 amended: idempotence on ISO cells holds for columns whose
detected format is the ISO format (the counterexample forces the
restriction: a column detected with another format maps its ISO cells
to the empty string): in such a column every cell that is the canonical
YYYY-MM-DD rendering of a valid date reappears unchanged at the same
index of the derived harmonized column. -/
theorem C6_iso_idempotent_amended :
    ∀ (df res : DF), df.names.Nodup →
      (∀ p ∈ detectDateColumnsPolars df, (p.1 ++ "_harmonized") ∉ df.names) →
      ∀ (c : String) (cells : List (Option String)),
        (c, Col.strCol cells) ∈ df.cols →
        (c, some "%Y-%m-%d") ∈ detectDateColumnsPolars df →
        harmonizeDatesPolars df (detectDateColumnsPolars df) = .ok res →
        ∀ (i : Nat) (dd : Date), dd.year < 10000 →
          validYMD dd.year dd.month dd.day = true →
          cells.get? i = some (some (formatISO dd)) →
          alookup res.cols (c ++ "_harmonized")
            = some (.strCol (cells.map (fun o => some (harmonizeCellStr (some "%Y-%m-%d") o))))
          ∧ (cells.map (fun o => some (harmonizeCellStr (some "%Y-%m-%d") o))).get? i
            = some (some (formatISO dd)) := by
  intro df res hnd hclash c cells hcellsmem hdet hres i dd hy hv hcell
  have hstruct := harmonizePolars_structure df hnd hclash
  rw [hres] at hstruct
  have hreseq : res = ⟨df.cols ++ (detectDateColumnsPolars df).map
      (fun p => (p.1 ++ "_harmonized", Col.strCol ((hvalsPolars df p).map some)))⟩ := by
    injection hstruct
  have hvals : hvalsPolars df (c, some "%Y-%m-%d")
      = cells.map (harmonizeCellStr (some "%Y-%m-%d")) := by
    unfold hvalsPolars
    rw [show ((c, some "%Y-%m-%d") : String × Option String).1 = c from rfl,
      alookup_of_mem_nodup hnd hcellsmem]
    rfl
  constructor
  · rw [hreseq]
    show alookup (df.cols ++ _) (c ++ "_harmonized") = _
    rw [alookup_append,
      alookup_eq_none_of_not_mem (hclash (c, some "%Y-%m-%d") hdet)]
    rw [alookup_harm_map _ (detectDateColumnsPolars df)
      (detectPolars_names_nodup hnd) c (some "%Y-%m-%d") hdet]
    rw [show ((c, some "%Y-%m-%d") : String × Option String) = (c, some "%Y-%m-%d")
      from rfl]
    rw [hvals, List.map_map]
    rfl
  · rw [List.get?_map, hcell]
    simp only [Option.map_some']
    rw [harmonizeCellStr_iso hy hv]

/-- C6 witness: the amended idempotence applied to a concrete ISO
column at index 0 with the date 2020-01-01. -/
theorem C6_iso_idempotent_amended_witness :
    alookup (DF.mk (dfW.cols ++ (detectDateColumnsPolars dfW).map
        (fun p => (p.1 ++ "_harmonized", Col.strCol ((hvalsPolars dfW p).map some))))).cols
        ("date" ++ "_harmonized")
      = some (.strCol ([some "2020-01-01", some "2024-12-31"].map
          (fun o => some (harmonizeCellStr (some "%Y-%m-%d") o))))
    ∧ ([some "2020-01-01", some "2024-12-31"].map
        (fun o => some (harmonizeCellStr (some "%Y-%m-%d") o))).get? 0
      = some (some (formatISO ⟨2020, 1, 1⟩)) :=
  C6_iso_idempotent_amended dfW _ (by decide) (by decide) "date"
    [some "2020-01-01", some "2024-12-31"] (by decide) (by decide) rfl
    0 ⟨2020, 1, 1⟩ (by decide) (by decide) (by decide)

/-- C3 witness: the two amended statements at concrete inputs. -/
theorem C3_error_handling_amended_witness :
    get_date_range_lazy envC3bad "nosuch" = (none, none)
    ∧ (processFileSync (envExcelBad "boom") storeXlsx "data.xlsx" (some "date")).2
        = .ok (.errored "boom") :=
  ⟨C3_error_handling_amended.1 envC3bad "nosuch" "No such file or directory" rfl rfl,
   (C3_error_handling_amended.2 "boom").2.2⟩

end DsDemo
